import Mathlib

/-!
Shallow embedding of the construct binary-format engine (src/construct/core.py)
into Lean 4, used to check the natural-language specification against the code.

Bytes are modelled as natural numbers (each byte value is below 256 wherever the
source guarantees it).  A parse stream is an immutable byte list with a cursor;
a build stream additionally supports random-access writes the way BytesIO does.
Fallible code returns Except over the Python exception class that it raises.
Loops of the source that are not structurally recursive are given an explicit
fuel parameter that strictly dominates the number of iterations the source
performs, so every definition is executable.
-/

set_option maxRecDepth 4096

namespace ConstructSpec

/-! ## Exception classes (src/construct/core.py lines 16-47)

Each Python exception class is one constructor; the direct base class of each
is recorded exactly as written in the source.  PackerError stands for
struct.error raised by the struct module packers.  MappingError is NOT in
src/construct/core.py: the module construct/adapters.py is referenced by
construct/__init__.py but absent from src/, so its place in the hierarchy is
modelled from the spec, which lists mapping as a subkind of adaptation error.
-/

inductive ErrClass where
  | exception
  | valueError
  | typeError
  | packerError
  | constructError
  | fieldError
  | sizeofError
  | adaptationError
  | arrayError
  | rangeError
  | switchError
  | selectError
  | terminatorError
  | overwriteError
  | paddingError
  | constError
  | stringError
  | checksumError
  | validationError
  | bitIntegerError
  | mappingError
  deriving DecidableEq, Repr, Fintype

/-- Direct base class of each exception class, as declared in the source.
ConstructError(Exception); FieldError(ConstructError); ...;
OverwriteError(ValueError); ValidationError(AdaptationError);
BitIntegerError(AdaptationError).  MappingError is modelled from the spec
(adaptation subkind) because construct/adapters.py is not under src/. -/
def ErrClass.base : ErrClass → Option ErrClass
  | .exception => none
  | .valueError => some .exception
  | .typeError => some .exception
  | .packerError => some .exception
  | .constructError => some .exception
  | .fieldError => some .constructError
  | .sizeofError => some .constructError
  | .adaptationError => some .constructError
  | .arrayError => some .constructError
  | .rangeError => some .constructError
  | .switchError => some .constructError
  | .selectError => some .constructError
  | .terminatorError => some .constructError
  | .overwriteError => some .valueError
  | .paddingError => some .constructError
  | .constError => some .constructError
  | .stringError => some .constructError
  | .checksumError => some .constructError
  | .validationError => some .adaptationError
  | .bitIntegerError => some .adaptationError
  | .mappingError => some .adaptationError

/-- All superclasses of a class, itself included.  The hierarchy has depth at
most four, so three steps of base suffice. -/
def ErrClass.ancestry (c : ErrClass) : List ErrClass :=
  c :: (match c.base with
    | none => []
    | some b => b :: (match b.base with
      | none => []
      | some b2 => b2 :: (match b2.base with
        | none => []
        | some b3 => [b3])))

/-- Whether an exception of class c is caught by an except clause for class d. -/
def ErrClass.isSubclassOf (c d : ErrClass) : Bool :=
  d ∈ c.ancestry

/-- Whether the class is caught by an except clause for ConstructError,
the root of the error taxonomy. -/
def isConstructError (c : ErrClass) : Bool :=
  c.isSubclassOf .constructError

/-! ## Streams

A parse stream mirrors BytesIO opened for reading: fixed data, a cursor.
A build stream mirrors BytesIO opened for writing: write overwrites at the
cursor, extending with zero bytes when the cursor is past the end. -/

structure PStream where
  data : List Nat
  pos : Nat
  deriving DecidableEq, Repr

structure BStream where
  data : List Nat
  pos : Nat
  deriving DecidableEq, Repr

/-- BytesIO.write at the cursor: overwrite in place, zero-fill any gap,
advance the cursor past the written chunk. -/
def BStream.write (s : BStream) (chunk : List Nat) : BStream :=
  let padded := s.data ++ List.replicate (s.pos - s.data.length) 0
  ⟨padded.take s.pos ++ chunk ++ padded.drop (s.pos + chunk.length),
   s.pos + chunk.length⟩

/-- Helper read_stream (core.py): read exactly length bytes or raise
FieldError.  The length < 0 check of the source is vacuous over Nat. -/
def read_stream (s : PStream) (length : Nat) : Except ErrClass (List Nat × PStream) :=
  let data := (s.data.drop s.pos).take length
  if data.length = length then .ok (data, ⟨s.data, s.pos + length⟩)
  else .error .fieldError

/-- Helper write_stream (core.py): raise FieldError unless the chunk has
exactly the stated length, then write it. -/
def write_stream (s : BStream) (length : Nat) (data : List Nat) : Except ErrClass BStream :=
  if data.length = length then .ok (s.write data)
  else .error .fieldError

/-! ## Context

Contexts are Containers: insertion-ordered mappings from name to value.
The Container class lives in construct/lib/container.py which is not under
src/ (only its tests are), so its operations are modelled from the spec:
set binds a name (overwriting in place when present), copy yields a private
copy (the identity in a functional embedding), update merges every binding
of the other container into this one. -/

abbrev Ctx (β : Type) := List (String × β)

def ctxSet {β : Type} : Ctx β → String → β → Ctx β
  | [], k, v => [(k, v)]
  | (k0, v0) :: rest, k, v =>
    if k0 = k then (k, v) :: rest else (k0, v0) :: ctxSet rest k v

/-- Modelled from the spec: Container.__copy__ gives a private copy; on
immutable functional values this is the identity. -/
def ctxCopy {β : Type} (c : Ctx β) : Ctx β := c

/-- Modelled from the spec: Container.__update__ merges every binding of the
second container into the first. -/
def ctxUpdate {β : Type} (c other : Ctx β) : Ctx β :=
  other.foldl (fun acc kv => ctxSet acc kv.1 kv.2) c

/-! ## VarInt (core.py lines 1892-1924)

parse: acc = 0; loop reading one byte b; acc = (acc << 7) | (b & 127);
stop when the high bit of b is clear.
build: negative input raises ValueError; while obj > 127 write
128 | (obj & 127) and shift obj right by 7; finally write obj.
Both loops carry fuel strictly larger than the iterations performed. -/

def VarInt_parse_loop (fuel : Nat) (s : PStream) (acc : Nat) :
    Except ErrClass (Nat × PStream) :=
  match fuel with
  | 0 => .error .fieldError
  | fuel + 1 =>
    match read_stream s 1 with
    | .error e => .error e
    | .ok (bs, s1) =>
      let b := bs.headD 0
      let acc1 := (acc <<< 7) ||| (b &&& 127)
      if b &&& 128 = 0 then .ok (acc1, s1)
      else VarInt_parse_loop fuel s1 acc1

def VarInt_parse (s : PStream) : Except ErrClass (Nat × PStream) :=
  VarInt_parse_loop (s.data.length - s.pos + 1) s 0

def VarInt_build_loop (fuel : Nat) (obj : Nat) (s : BStream) : BStream :=
  match fuel with
  | 0 => s
  | fuel + 1 =>
    if obj > 127 then
      VarInt_build_loop fuel (obj >>> 7) (s.write [128 ||| (obj &&& 127)])
    else s.write [obj]

def VarInt_build (obj : Int) (s : BStream) : Except ErrClass BStream :=
  if obj < 0 then .error .valueError
  else .ok (VarInt_build_loop (obj.toNat + 1) obj.toNat s)

/-! ## ULInt24 (core.py lines 1534-1556)

parse: read 3 bytes, unpack with format BH little endian giving
vals = (byte0, byte1 + 256 * byte2), return vals0 + (vals1 << 8).
build: vals = (obj % 256, obj >> 8), pack BH little endian; the packer
raises struct.error when the second value does not fit 16 bits. -/

def ULInt24_parse (s : PStream) : Except ErrClass (Nat × PStream) :=
  match read_stream s 3 with
  | .error e => .error e
  | .ok (bs, s1) =>
    let v0 := bs.getD 0 0
    let v1 := bs.getD 1 0 + 256 * bs.getD 2 0
    .ok (v0 + (v1 <<< 8), s1)

def ULInt24_build (obj : Nat) (s : BStream) : Except ErrClass BStream :=
  let v0 := obj % 256
  let v1 := obj >>> 8
  if v1 < 65536 then write_stream s 3 [v0, v1 % 256, v1 / 256]
  else .error .packerError

/-! ## CString (core.py lines 1843-1857), encoding None (byte strings)

parse: loop reading one byte; stop (consuming it, not returning it) when the
byte is one of the terminators, else append it to the accumulator.
build: append the first terminator byte to the payload and write it out.
The parse loop carries fuel strictly larger than the bytes it can read. -/

def CString_parse_loop (terminators : List Nat) (fuel : Nat) (s : PStream)
    (acc : List Nat) : Except ErrClass (List Nat × PStream) :=
  match fuel with
  | 0 => .error .fieldError
  | fuel + 1 =>
    match read_stream s 1 with
    | .error e => .error e
    | .ok (chars, s1) =>
      let char := chars.headD 0
      if char ∈ terminators then .ok (acc, s1)
      else CString_parse_loop terminators fuel s1 (acc ++ [char])

def CString_parse (terminators : List Nat) (s : PStream) :
    Except ErrClass (List Nat × PStream) :=
  CString_parse_loop terminators (s.data.length - s.pos + 1) s []

def CString_build (terminators : List Nat) (obj : List Nat) (s : BStream) :
    Except ErrClass BStream :=
  let obj1 := obj ++ terminators.take 1
  write_stream s obj1.length obj1

/-! ## FormatField with format B (core.py lines 390-425, the Byte field)

An unsigned 8-bit integer.  parse: read one byte and unpack it (unpacking a
single unsigned byte cannot fail).  build: pack the value; the packer raises
struct.error outside 0..255, which FormatField converts to FieldError. -/

def FormatFieldB_parse (s : PStream) : Except ErrClass (Nat × PStream) :=
  match read_stream s 1 with
  | .error e => .error e
  | .ok (bs, s1) => .ok (bs.headD 0, s1)

def FormatFieldB_build (obj : Nat) (s : BStream) : Except ErrClass BStream :=
  if obj < 256 then write_stream s 1 [obj]
  else .error .fieldError

/-! ## Subconstruct interfaces

The source dispatches parse, build and sizeof virtually on the subconstruct
object.  A subconstruct is therefore embedded as a record of the three
functions together with its name, over a parse-value type A and a context
value type B. -/

structure Sub (A B : Type) where
  name : Option String
  parseF : PStream → Ctx B → Except ErrClass (A × PStream × Ctx B)
  buildF : A → BStream → Ctx B → Except ErrClass (BStream × Ctx B)
  sizeofF : Ctx B → Except ErrClass Nat

/-! ## Aligned (core.py lines 1641-1655)

parse: remember position1, parse the sub, let pad be the negation of the
advance modulo the modulus, read pad bytes.  build mirrors with pad bytes of
the pattern.  sizeof delegates to the sub unchanged. -/

def alignPad (modulus : Nat) (position1 position2 : Nat) : Nat :=
  ((-((position2 : Int) - (position1 : Int))) % (modulus : Int)).toNat

def Aligned_parse {A B : Type} (modulus : Nat) (sub : Sub A B) (s : PStream)
    (ctx : Ctx B) : Except ErrClass (A × PStream × Ctx B) :=
  let position1 := s.pos
  match sub.parseF s ctx with
  | .error e => .error e
  | .ok (obj, s2, ctx2) =>
    let pad := alignPad modulus position1 s2.pos
    match read_stream s2 pad with
    | .error e => .error e
    | .ok (_, s3) => .ok (obj, s3, ctx2)

def Aligned_build {A B : Type} (modulus : Nat) (pattern : Nat) (sub : Sub A B)
    (obj : A) (s : BStream) (ctx : Ctx B) : Except ErrClass (BStream × Ctx B) :=
  let position1 := s.pos
  match sub.buildF obj s ctx with
  | .error e => .error e
  | .ok (s2, ctx2) =>
    let pad := alignPad modulus position1 s2.pos
    match write_stream s2 pad (List.replicate pad pattern) with
    | .error e => .error e
    | .ok (s3) => .ok (s3, ctx2)

def Aligned_sizeof {A B : Type} (sub : Sub A B) (ctx : Ctx B) :
    Except ErrClass Nat :=
  sub.sizeofF ctx

/-- The public sizeof entry point calls the internal sizeof with a fresh
empty context when none is given (core.py Construct.sizeof). -/
def Aligned_sizeof_noctx {A B : Type} (sub : Sub A B) : Except ErrClass Nat :=
  Aligned_sizeof sub ([] : Ctx B)

/-! ## Peek (core.py lines 1101-1118) and Union (core.py lines 929-964)

Peek parse: remember the position, parse the sub, and in all cases restore
the position; a FieldError from the sub is swallowed, yielding None.
Union wraps every sub in Peek(sub, performbuild=True) at construction; parse
runs every wrapped sub on the stream in order, collecting each result into a
container under the sub name; sizeof is the maximum of the sub sizes (the
Peek wrapper forwards sizeof to its sub). -/

def Peek_parse {A B : Type} (sub : Sub A B) (s : PStream) (ctx : Ctx B) :
    Except ErrClass (Option A × PStream × Ctx B) :=
  let pos := s.pos
  match sub.parseF s ctx with
  | .ok (v, s1, ctx1) => .ok (some v, ⟨s1.data, pos⟩, ctx1)
  | .error e =>
    if e.isSubclassOf .fieldError then .ok (none, ⟨s.data, pos⟩, ctx)
    else .error e

def Union_parse_loop {A B : Type} (subs : List (Sub A B))
    (ret : Ctx (Option A)) (s : PStream) (ctx : Ctx B) :
    Except ErrClass (Ctx (Option A) × PStream × Ctx B) :=
  match subs with
  | [] => .ok (ret, s, ctx)
  | sc :: rest =>
    match Peek_parse sc s ctx with
    | .error e => .error e
    | .ok (v, s1, ctx1) =>
      Union_parse_loop rest (ctxSet ret (sc.name.getD "") v) s1 ctx1

def Union_parse {A B : Type} (subs : List (Sub A B)) (s : PStream)
    (ctx : Ctx B) : Except ErrClass (Ctx (Option A) × PStream × Ctx B) :=
  Union_parse_loop subs [] s ctx

/-- The list comprehension of sub sizes: the first sizeof failure
propagates. -/
def Union_sizes {A B : Type} (subs : List (Sub A B)) (ctx : Ctx B) :
    Except ErrClass (List Nat) :=
  match subs with
  | [] => .ok []
  | sc :: rest =>
    match sc.sizeofF ctx with
    | .error e => .error e
    | .ok n =>
      match Union_sizes rest ctx with
      | .error e => .error e
      | .ok ns => .ok (n :: ns)

/-- max of the sub sizes; the Python max of an empty list raises ValueError. -/
def Union_sizeof {A B : Type} (subs : List (Sub A B)) (ctx : Ctx B) :
    Except ErrClass Nat :=
  match Union_sizes subs ctx with
  | .error e => .error e
  | .ok [] => .error .valueError
  | .ok (x :: xs) => .ok (xs.foldl Nat.max x)

/-! ## Select (core.py lines 986-1027)

parse: for each sub in order, remember the stream position and run the sub on
a private copy of the context; a ConstructError rewinds the stream to the
remembered position and moves on; success commits the private copy into the
caller context (Container update) and returns the value, paired with the sub
name when include_name is set; when no sub matched, SelectError. -/

inductive SelVal (A : Type) where
  | named (n : Option String) (v : A)
  | plain (v : A)
  deriving DecidableEq, Repr

def Select_parse {A B : Type} (includeName : Bool) (subs : List (Sub A B))
    (s : PStream) (ctx : Ctx B) :
    Except ErrClass (SelVal A × PStream × Ctx B) :=
  match subs with
  | [] => .error .selectError
  | sc :: rest =>
    let fallback := s.pos
    let context2 := ctxCopy ctx
    match sc.parseF s context2 with
    | .error e =>
      if isConstructError e then
        Select_parse includeName rest ⟨s.data, fallback⟩ ctx
      else .error e
    | .ok (obj, s1, c2) =>
      .ok (if includeName then .named sc.name obj else .plain obj,
           s1, ctxUpdate ctx c2)

/-! ## Range (core.py lines 571-623)

parse: up to maxcount iterations, each remembering the position before the
attempt; the first ConstructError ends the loop: fewer than mincount
successes raise RangeError, otherwise the stream is rewound to the last
remembered position and the successes are returned.
build: a non-sequence input raises RangeError, as does a length outside
mincount..maxcount; then the items are built in order, counting successes; a
ConstructError from an item raises RangeError when fewer than mincount items
were built and is otherwise silently discarded, ending the build. -/

def Range_parse_loop {A B : Type} (mincount : Nat) (sub : Sub A B) :
    Nat → Nat → PStream → Ctx B → List A →
    Except ErrClass (List A × PStream × Ctx B)
  | 0, _, s, ctx, acc => .ok (acc.reverse, s, ctx)
  | remaining + 1, c, s, ctx, acc =>
    match sub.parseF s ctx with
    | .ok (v, s1, ctx1) =>
      Range_parse_loop mincount sub remaining (c + 1) s1 ctx1 (v :: acc)
    | .error e =>
      if isConstructError e then
        if c < mincount then .error .rangeError
        else .ok (acc.reverse, ⟨s.data, s.pos⟩, ctx)
      else .error e

def Range_parse {A B : Type} (mincount maxcount : Nat) (sub : Sub A B)
    (s : PStream) (ctx : Ctx B) : Except ErrClass (List A × PStream × Ctx B) :=
  Range_parse_loop mincount sub maxcount 0 s ctx []

/-- Build input: either a sequence or something that is not a sequence
(isinstance(obj, collections.Sequence) in the source). -/
inductive PyObj (A : Type) where
  | sequence (l : List A)
  | nonsequence
  deriving DecidableEq, Repr

def Range_build_loop {A B : Type} (mincount : Nat) (sub : Sub A B) :
    List A → Nat → BStream → Ctx B → Except ErrClass (BStream × Ctx B)
  | [], _, s, ctx => .ok (s, ctx)
  | x :: xs, cnt, s, ctx =>
    match sub.buildF x s ctx with
    | .ok (s1, ctx1) => Range_build_loop mincount sub xs (cnt + 1) s1 ctx1
    | .error e =>
      if isConstructError e then
        if cnt < mincount then .error .rangeError
        else .ok (s, ctx)
      else .error e

def Range_build {A B : Type} (mincount maxcount : Nat) (sub : Sub A B)
    (obj : PyObj A) (s : BStream) (ctx : Ctx B) :
    Except ErrClass (BStream × Ctx B) :=
  match obj with
  | .nonsequence => .error .rangeError
  | .sequence l =>
    if l.length < mincount ∨ l.length > maxcount then .error .rangeError
    else Range_build_loop mincount sub l 0 s ctx

/-! ## Pointer (core.py lines 1059-1073)

parse: compute the new position from the context, remember the original
position, seek (whence end when the offset is negative, else absolute),
parse the sub, seek back.  build mirrors.  sizeof is zero. -/

/-- The stream position targeted by seek(newpos, 2 if newpos < 0 else 0):
from the end when negative, else absolute.  BytesIO raises ValueError when
the resulting position is negative. -/
def seekTarget (newpos : Int) (length : Nat) : Int :=
  if newpos < 0 then (length : Int) + newpos else newpos

def Pointer_parse {A B : Type} (offsetfunc : Ctx B → Int) (sub : Sub A B)
    (s : PStream) (ctx : Ctx B) : Except ErrClass (A × PStream × Ctx B) :=
  let newpos := seekTarget (offsetfunc ctx) s.data.length
  let origpos := s.pos
  if newpos < 0 then .error .valueError
  else
    match sub.parseF ⟨s.data, newpos.toNat⟩ ctx with
    | .error e => .error e
    | .ok (obj, s1, ctx1) => .ok (obj, ⟨s1.data, origpos⟩, ctx1)

def Pointer_build {A B : Type} (offsetfunc : Ctx B → Int) (sub : Sub A B)
    (obj : A) (s : BStream) (ctx : Ctx B) :
    Except ErrClass (BStream × Ctx B) :=
  let newpos := seekTarget (offsetfunc ctx) s.data.length
  let origpos := s.pos
  if newpos < 0 then .error .valueError
  else
    match sub.buildF obj ⟨s.data, newpos.toNat⟩ ctx with
    | .error e => .error e
    | .ok (s1, ctx1) => .ok (⟨s1.data, origpos⟩, ctx1)

def Pointer_sizeof {B : Type} (ctx : Ctx B) : Except ErrClass Nat :=
  .ok 0

/-! ## Trace helpers used to state the repeater claims

iterSub sub k runs k successful parses of the sub in sequence; buildAll runs
the sub build once per item.  They only package hypotheses about how a given
subconstruct behaves on a given stream and context. -/

def iterSub {A B : Type} (sub : Sub A B) :
    Nat → PStream → Ctx B → Except ErrClass (List A × PStream × Ctx B)
  | 0, s, ctx => .ok ([], s, ctx)
  | k + 1, s, ctx =>
    match sub.parseF s ctx with
    | .error e => .error e
    | .ok (v, s1, c1) =>
      match iterSub sub k s1 c1 with
      | .error e => .error e
      | .ok (lst, s2, c2) => .ok (v :: lst, s2, c2)

def buildAll {A B : Type} (sub : Sub A B) :
    List A → BStream → Ctx B → Except ErrClass (BStream × Ctx B)
  | [], s, ctx => .ok (s, ctx)
  | x :: xs, s, ctx =>
    match sub.buildF x s ctx with
    | .error e => .error e
    | .ok (s1, c1) => buildAll sub xs s1 c1

/-! ## Concrete subconstructs used by the closed theorems and witnesses -/

/-- The Byte field (FormatField with format B) packaged as a subconstruct. -/
def byteSub : Sub Nat Nat where
  name := some "num"
  parseF := fun s ctx =>
    match FormatFieldB_parse s with
    | .ok (v, s1) => .ok (v, s1, ctx)
    | .error e => .error e
  buildF := fun obj s ctx =>
    match FormatFieldB_build obj s with
    | .ok s1 => .ok (s1, ctx)
    | .error e => .error e
  sizeofF := fun _ => .ok 1

/-- StaticField (core.py lines 371-387): read or write exactly length bytes. -/
def StaticField_sub (nm : Option String) (length : Nat) : Sub (List Nat) Nat where
  name := nm
  parseF := fun s ctx =>
    match read_stream s length with
    | .ok (v, s1) => .ok (v, s1, ctx)
    | .error e => .error e
  buildF := fun obj s ctx =>
    match write_stream s length obj with
    | .ok s1 => .ok (s1, ctx)
    | .error e => .error e
  sizeofF := fun _ => .ok length

/-- A subconstruct whose build succeeds only on the value 0 (writing a zero
byte) and otherwise raises FieldError; used to witness the Range build
behaviour on a failing item. -/
def zeroOnlySub : Sub Nat Nat where
  name := none
  parseF := fun s ctx =>
    match FormatFieldB_parse s with
    | .ok (v, s1) => .ok (v, s1, ctx)
    | .error e => .error e
  buildF := fun obj s ctx =>
    if obj = 0 then
      match write_stream s 1 [0] with
      | .ok s1 => .ok (s1, ctx)
      | .error e => .error e
    else .error .fieldError
  sizeofF := fun _ => .ok 1

/-! # Theorems -/

/-- Claim C1.  VarInt build does write low-7-bit groups least significant
first with continuation bits, matching the protobuf examples (645 and the
documented byte strings), and a negative value fails to build; but the claim
that parse inverts build on every non-negative integer is false of the code:
parse folds the groups most significant first, so parse(build(128)) is 1,
not 128 as Google's base-128 varint requires.  This theorem evaluates the
code at the documented examples and at the failing input 128. -/
theorem C1_varint_code_bug :
    VarInt_parse ⟨[133, 5], 0⟩ = .ok (645, ⟨[133, 5], 2⟩)
    ∧ VarInt_build 645 ⟨[], 0⟩ = .ok ⟨[133, 5], 2⟩
    ∧ VarInt_build (-1) ⟨[], 0⟩ = .error .valueError
    ∧ VarInt_build 128 ⟨[], 0⟩ = .ok ⟨[128, 1], 2⟩
    ∧ VarInt_parse ⟨[128, 1], 0⟩ = .ok (1, ⟨[128, 1], 2⟩)
    ∧ (1 : Nat) ≠ 128 := by
  refine ⟨rfl, rfl, rfl, rfl, rfl, by decide⟩

/-- Claim C2.  The static-size contract fails on Aligned: for
Aligned(Byte, modulus 4), sizeof() succeeds without a context and returns 1
(the subconstruct size, core.py line 1655 forgets the padding), yet build
writes 4 bytes and parse consumes 4 bytes; the Aligned docstring states
sizeof() is 4.  This theorem evaluates the code at that failing input. -/
theorem C2_static_size_aligned_bug :
    Aligned_sizeof_noctx byteSub = .ok 1
    ∧ Aligned_build 4 0 byteSub 255 ⟨[], 0⟩ [] = .ok (⟨[255, 0, 0, 0], 4⟩, [])
    ∧ Aligned_parse 4 byteSub ⟨[255, 0, 0, 0, 9], 0⟩ [] =
        .ok (255, ⟨[255, 0, 0, 0, 9], 4⟩, [])
    ∧ (4 : Nat) ≠ 1 := by
  refine ⟨rfl, rfl, rfl, by decide⟩

/-- Claim C4, counterexample.  OverwriteError, raised for a duplicate struct
key, is declared as a subclass of ValueError (core.py line 34), not of the
root ConstructError, so a handler for the root error kind does not catch it:
the claim is false at the overwrite error kind. -/
theorem C4_overwrite_counterexample :
    ErrClass.base .overwriteError = some .valueError
    ∧ ErrClass.isSubclassOf .overwriteError .constructError = false := by
  decide

/-- Claim C4, amended.  Every error kind of the taxonomy except the
overwrite error is a direct child of the root ConstructError — with the
validation, mapping and bit-integer kinds as children of the adaptation
error, as the claim itself qualifies — and is therefore caught by a handler
for the root kind; the overwrite error instead derives from ValueError and
escapes such a handler. -/
theorem C4_error_taxonomy_amended :
    ErrClass.base .fieldError = some .constructError
    ∧ ErrClass.base .sizeofError = some .constructError
    ∧ ErrClass.base .adaptationError = some .constructError
    ∧ ErrClass.base .arrayError = some .constructError
    ∧ ErrClass.base .rangeError = some .constructError
    ∧ ErrClass.base .switchError = some .constructError
    ∧ ErrClass.base .selectError = some .constructError
    ∧ ErrClass.base .terminatorError = some .constructError
    ∧ ErrClass.base .paddingError = some .constructError
    ∧ ErrClass.base .constError = some .constructError
    ∧ ErrClass.base .stringError = some .constructError
    ∧ ErrClass.base .checksumError = some .constructError
    ∧ ErrClass.base .validationError = some .adaptationError
    ∧ ErrClass.base .bitIntegerError = some .adaptationError
    ∧ ErrClass.base .mappingError = some .adaptationError
    ∧ ErrClass.base .overwriteError = some .valueError
    ∧ (∀ c ∈ ([.fieldError, .sizeofError, .adaptationError, .arrayError,
          .rangeError, .switchError, .selectError, .terminatorError,
          .paddingError, .constError, .stringError, .checksumError,
          .validationError, .bitIntegerError, .mappingError] : List ErrClass),
        ErrClass.isSubclassOf c .constructError = true)
    ∧ ErrClass.isSubclassOf .overwriteError .constructError = false := by
  decide

/-- Claim C8.  The 24-bit little-endian integer field parses the documented
example to 0x030201, and for every value below 2 to the 24th, build emits
exactly the three little-endian bytes and parse inverts build. -/
theorem C8_ulint24_roundtrip :
    ULInt24_parse ⟨[1, 2, 3], 0⟩ = .ok (197121, ⟨[1, 2, 3], 3⟩)
    ∧ ∀ v : Nat, v < 16777216 →
        ULInt24_build v ⟨[], 0⟩ =
          .ok ⟨[v % 256, v / 256 % 256, v / 256 / 256], 3⟩
        ∧ ULInt24_parse ⟨[v % 256, v / 256 % 256, v / 256 / 256], 0⟩ =
            .ok (v, ⟨[v % 256, v / 256 % 256, v / 256 / 256], 3⟩) := by
  constructor
  · rfl
  · intro v hv
    have hshift : v >>> 8 = v / 256 := by
      simp [Nat.shiftRight_eq_div_pow]
    have hlt : v / 256 < 65536 := by omega
    constructor
    · simp only [ULInt24_build, hshift, if_pos hlt, write_stream,
        BStream.write, List.length_cons, List.length_nil]
      norm_num [List.replicate]
    · simp only [ULInt24_parse, read_stream, List.drop_zero]
      norm_num [List.getD, Nat.shiftLeft_eq]
      omega

/-- Claim C8 witness: the general round trip applied at 197121. -/
theorem C8_ulint24_roundtrip_witness :
    (197121 : Nat) < 16777216
    ∧ ULInt24_build 197121 ⟨[], 0⟩ = .ok ⟨[1, 2, 3], 3⟩ :=
  ⟨by decide, (C8_ulint24_roundtrip.2 197121 (by decide)).1⟩

/-- Claim C9.  Pointer parses and builds its sub at the offset computed from
the context — a negative offset being taken from the stream end, as
seekTarget states — and on success the returned stream position equals the
position before the call; its sizeof is 0 in every context. -/
theorem C9_pointer_frame {A B : Type} (f : Ctx B → Int) (sub : Sub A B)
    (s : PStream) (bs : BStream) (ctx : Ctx B) :
    (∀ v s1 c1, 0 ≤ seekTarget (f ctx) s.data.length →
        sub.parseF ⟨s.data, (seekTarget (f ctx) s.data.length).toNat⟩ ctx =
          .ok (v, s1, c1) →
        Pointer_parse f sub s ctx = .ok (v, ⟨s1.data, s.pos⟩, c1))
    ∧ (∀ obj s1 c1, 0 ≤ seekTarget (f ctx) bs.data.length →
        sub.buildF obj ⟨bs.data, (seekTarget (f ctx) bs.data.length).toNat⟩ ctx =
          .ok (s1, c1) →
        Pointer_build f sub obj bs ctx = .ok (⟨s1.data, bs.pos⟩, c1))
    ∧ Pointer_sizeof (B := B) ctx = .ok 0 := by
  refine ⟨?_, ?_, rfl⟩
  · intro v s1 c1 ht hp
    simp only [Pointer_parse]
    rw [if_neg (by omega), hp]
  · intro obj s1 c1 ht hb
    simp only [Pointer_build]
    rw [if_neg (by omega), hb]

/-- Claim C9 witness: a pointer with offset -2 over a three-byte stream at
position 1 parses one byte at absolute position 1 and restores position 1. -/
theorem C9_pointer_frame_witness :
    (0 : Int) ≤ seekTarget (-2) 3
    ∧ Pointer_parse (fun _ => (-2 : Int)) (StaticField_sub none 1)
        ⟨[9, 8, 7], 1⟩ ([] : Ctx Nat) = .ok ([8], ⟨[9, 8, 7], 1⟩, []) :=
  ⟨by decide,
   (C9_pointer_frame (fun _ => (-2 : Int)) (StaticField_sub none 1)
      ⟨[9, 8, 7], 1⟩ ⟨[], 0⟩ []).1 [8] ⟨[9, 8, 7], 2⟩ [] (by decide) rfl⟩

/-- Claim C3, counterexample.  For Union of two static fields of sizes 1 and
2 over the stream 01 02 03, sizeof is max 1 2 = 2, but after parse the
stream position is 0, not the maximum 2: every sub is wrapped in a Peek at
construction (core.py line 932), which restores the position. -/
theorem C3_union_position_counterexample :
    Union_sizeof [StaticField_sub (some "a") 1, StaticField_sub (some "b") 2]
        ([] : Ctx Nat) = .ok 2
    ∧ Union_parse [StaticField_sub (some "a") 1, StaticField_sub (some "b") 2]
        ⟨[1, 2, 3], 0⟩ [] =
        .ok ([("a", some [1]), ("b", some [1, 2])], ⟨[1, 2, 3], 0⟩, [])
    ∧ (0 : Nat) ≠ 2 :=
  ⟨rfl, rfl, by decide⟩

/-- Claim C3, amended.  For statically sized subconstructs A and B,
Union(A, B).sizeof is max of the two sizes; every sub reads from the same
initial position, and after parse the stream position equals the initial
position (here 0), not the maximum, because each sub is Peek-wrapped. -/
theorem C3_union_amended {A B : Type} (a b : Sub A B) (d : List Nat)
    (ctx ctx2 : Ctx B) (nA nB : Nat) (va vb : A) (sA sB : PStream)
    (cA cB : Ctx B)
    (hsa : a.sizeofF ctx2 = .ok nA) (hsb : b.sizeofF ctx2 = .ok nB)
    (hpa : a.parseF ⟨d, 0⟩ ctx = .ok (va, sA, cA))
    (hpb : b.parseF ⟨sA.data, 0⟩ cA = .ok (vb, sB, cB)) :
    Union_sizeof [a, b] ctx2 = .ok (Nat.max nA nB)
    ∧ Union_parse [a, b] ⟨d, 0⟩ ctx =
        .ok (ctxSet (ctxSet [] (a.name.getD "") (some va))
               (b.name.getD "") (some vb),
             ⟨sB.data, 0⟩, cB) := by
  constructor
  · simp [Union_sizeof, Union_sizes, hsa, hsb]
  · simp [Union_parse, Union_parse_loop, Peek_parse, hpa, hpb]

/-- Claim C3 witness: the amended statement applied to static fields of
sizes 1 and 2 over the stream 01 02 03. -/
theorem C3_union_amended_witness :
    Union_parse [StaticField_sub (some "a") 1, StaticField_sub (some "b") 2]
        ⟨[1, 2, 3], 0⟩ ([] : Ctx Nat) =
      .ok ([("a", some [1]), ("b", some [1, 2])], ⟨[1, 2, 3], 0⟩, []) :=
  (C3_union_amended (StaticField_sub (some "a") 1) (StaticField_sub (some "b") 2)
      [1, 2, 3] [] [] 1 2 [1] [1, 2] ⟨[1, 2, 3], 1⟩ ⟨[1, 2, 3], 2⟩ [] []
      rfl rfl rfl rfl).2

/-- Claim C5.  Select tries its subconstructs in declaration order, each
starting at the caller's stream position with a private context copy; a
ConstructError leaves the caller's stream position and context exactly as
before the attempt and moves to the next sub; the first success returns its
value (named when include_name is set), committing its context mutations by
a container update; no match raises SelectError. -/
theorem C5_select_atomic {A B : Type} (includeName : Bool) (sc : Sub A B)
    (rest : List (Sub A B)) (s : PStream) (ctx : Ctx B) :
    (∀ e, sc.parseF s (ctxCopy ctx) = .error e → isConstructError e = true →
        Select_parse includeName (sc :: rest) s ctx =
          Select_parse includeName rest s ctx)
    ∧ (∀ obj s1 c2, sc.parseF s (ctxCopy ctx) = .ok (obj, s1, c2) →
        Select_parse includeName (sc :: rest) s ctx =
          .ok ((if includeName then SelVal.named sc.name obj
                else SelVal.plain obj),
               s1, ctxUpdate ctx c2))
    ∧ Select_parse includeName ([] : List (Sub A B)) s ctx =
        .error .selectError := by
  refine ⟨?_, ?_, rfl⟩
  · intro e he hc
    simp only [Select_parse, ctxCopy] at he ⊢
    rw [he]
    simp [hc]
  · intro obj s1 c2 hok
    simp only [Select_parse, ctxCopy] at hok ⊢
    rw [hok]

/-- Claim C5 witness: a two-byte field fails on a one-byte stream with a
FieldError, so Select falls through from the pristine position to a one-byte
field, which succeeds. -/
theorem C5_select_atomic_witness :
    Select_parse false [StaticField_sub none 2, StaticField_sub none 1]
        ⟨[7], 0⟩ ([] : Ctx Nat) = .ok (SelVal.plain [7], ⟨[7], 1⟩, []) := by
  have h := (C5_select_atomic false (StaticField_sub none 2)
      [StaticField_sub none 1] ⟨[7], 0⟩ ([] : Ctx Nat)).1 .fieldError rfl rfl
  rw [h]
  rfl

/-- The CString parse loop, run over a stream whose remaining bytes are a
terminator-free payload followed by the first terminator, accumulates
exactly the payload and stops just past the terminator. -/
theorem CString_parse_loop_spec (t : Nat) (ts : List Nat) :
    ∀ (payload acc : List Nat) (p fuel : Nat) (D rest : List Nat),
      D.drop p = payload ++ t :: rest →
      (∀ b ∈ payload, b ∉ (t :: ts)) →
      payload.length + 1 ≤ fuel →
      CString_parse_loop (t :: ts) fuel ⟨D, p⟩ acc =
        .ok (acc ++ payload, ⟨D, p + payload.length + 1⟩) := by
  intro payload
  induction payload with
  | nil =>
    intro acc p fuel D rest hD hmem hfuel
    cases fuel with
    | zero => omega
    | succ f =>
      have htake : (D.drop p).take 1 = [t] := by rw [hD]; rfl
      simp [CString_parse_loop, read_stream, htake]
  | cons q qs ih =>
    intro acc p fuel D rest hD hmem hfuel
    cases fuel with
    | zero => simp at hfuel
    | succ f =>
      have htake : (D.drop p).take 1 = [q] := by rw [hD]; rfl
      have hq : q ∉ (t :: ts) := hmem q (by simp)
      have hD1 : D.drop (p + 1) = qs ++ t :: rest := by
        have h1 : D.drop (p + 1) = (D.drop p).drop 1 := by
          rw [List.drop_drop, Nat.add_comm]
        rw [h1, hD]
        rfl
      have hmem1 : ∀ b ∈ qs, b ∉ (t :: ts) := fun b hb => hmem b (by simp [hb])
      have hfuel1 : qs.length + 1 ≤ f := by
        simp at hfuel
        omega
      simp only [CString_parse_loop, read_stream, htake, List.length_cons,
        List.length_nil, if_pos, List.headD_cons]
      rw [if_neg hq, ih (acc ++ [q]) (p + 1) f D rest hD1 hmem1 hfuel1]
      simp
      omega

/-- Claim C7.  For a payload free of terminator bytes, CString build appends
exactly the first terminator byte after the payload, and parse returns the
payload, consuming the terminator byte without including it (the final
position is one past the payload). -/
theorem C7_cstring_roundtrip (payload : List Nat) (t : Nat) (ts : List Nat)
    (hpay : ∀ b ∈ payload, b ∉ (t :: ts)) :
    CString_build (t :: ts) payload ⟨[], 0⟩ =
      .ok ⟨payload ++ [t], payload.length + 1⟩
    ∧ CString_parse (t :: ts) ⟨payload ++ [t], 0⟩ =
        .ok (payload, ⟨payload ++ [t], payload.length + 1⟩) := by
  constructor
  · simp [CString_build, write_stream, BStream.write]
  · have h := CString_parse_loop_spec t ts payload [] 0
        ((payload ++ [t]).length - 0 + 1) (payload ++ [t]) [] (by simp)
        hpay (by simp)
    simpa [CString_parse] using h

/-- Claim C7 witness: the round trip at payload 68 69 with the null
terminator. -/
theorem C7_cstring_roundtrip_witness :
    (∀ b ∈ ([104, 105] : List Nat), b ∉ ([0] : List Nat))
    ∧ CString_parse [0] ⟨[104, 105, 0], 0⟩ =
        .ok ([104, 105], ⟨[104, 105, 0], 3⟩) :=
  ⟨by decide, (C7_cstring_roundtrip [104, 105] 0 [] (by decide)).2⟩

/-- The Range parse loop after k successful sub parses followed by a
ConstructError: fewer than mincount total successes raise RangeError,
otherwise the accumulated items are returned with the stream at the position
recorded before the failed attempt. -/
theorem Range_parse_loop_char {A B : Type} (mincount : Nat) (sub : Sub A B)
    (e : ErrClass) (he : isConstructError e = true) :
    ∀ (k remaining c : Nat) (s : PStream) (ctx : Ctx B) (acc items : List A)
      (sk : PStream) (ctxk : Ctx B),
      iterSub sub k s ctx = .ok (items, sk, ctxk) →
      (k < remaining → sub.parseF sk ctxk = .error e) →
      k ≤ remaining →
      mincount ≤ c + remaining →
      Range_parse_loop mincount sub remaining c s ctx acc =
        if c + k < mincount then .error .rangeError
        else .ok (acc.reverse ++ items, sk, ctxk) := by
  intro k
  induction k with
  | zero =>
    intro remaining c s ctx acc items sk ctxk hiter hfail hk hmin
    simp only [iterSub, Except.ok.injEq, Prod.mk.injEq] at hiter
    obtain ⟨h1, h2, h3⟩ := hiter
    subst h1; subst h2; subst h3
    cases remaining with
    | zero =>
      rw [if_neg (by omega)]
      simp [Range_parse_loop]
    | succ r =>
      have hf := hfail (by omega)
      simp only [Range_parse_loop, hf, he, if_true, Nat.add_zero,
        List.append_nil]
  | succ k ih =>
    intro remaining c s ctx acc items sk ctxk hiter hfail hk hmin
    cases hp : sub.parseF s ctx with
    | error e2 => simp [iterSub, hp] at hiter
    | ok triple =>
      obtain ⟨v, s1, c1⟩ := triple
      cases hi : iterSub sub k s1 c1 with
      | error e2 => simp [iterSub, hp, hi] at hiter
      | ok triple2 =>
        obtain ⟨items1, sk1, ck1⟩ := triple2
        simp only [iterSub, hp, hi, Except.ok.injEq, Prod.mk.injEq] at hiter
        obtain ⟨rfl, rfl, rfl⟩ := hiter
        cases remaining with
        | zero => omega
        | succ r =>
          simp only [Range_parse_loop, hp]
          rw [ih r (c + 1) s1 c1 (v :: acc) items1 sk1 ck1 hi
            (fun hlt => hfail (by omega)) (by omega) (by omega)]
          rw [show c + 1 + k = c + (k + 1) from by omega]
          simp

/-- Every successful Range parse returns between mincount and
c + remaining items, given the accumulator already holds c items. -/
theorem Range_parse_loop_bounds {A B : Type} (mincount : Nat) (sub : Sub A B) :
    ∀ (remaining c : Nat) (s : PStream) (ctx : Ctx B) (acc lst : List A)
      (s1 : PStream) (c1 : Ctx B),
      Range_parse_loop mincount sub remaining c s ctx acc = .ok (lst, s1, c1) →
      acc.length = c → mincount ≤ c + remaining →
      mincount ≤ lst.length ∧ lst.length ≤ c + remaining := by
  intro remaining
  induction remaining with
  | zero =>
    intro c s ctx acc lst s1 c1 h hacc hmin
    simp only [Range_parse_loop, Except.ok.injEq, Prod.mk.injEq] at h
    obtain ⟨h1, _, _⟩ := h
    subst h1
    simp [hacc]
    omega
  | succ r ih =>
    intro c s ctx acc lst s1 c1 h hacc hmin
    cases hp : sub.parseF s ctx with
    | ok triple =>
      obtain ⟨v, s2, c2⟩ := triple
      simp only [Range_parse_loop, hp] at h
      have := ih (c + 1) s2 c2 (v :: acc) lst s1 c1 h (by simp [hacc]) (by omega)
      omega
    | error e =>
      simp only [Range_parse_loop, hp] at h
      by_cases hce : isConstructError e
      · rw [if_pos hce] at h
        by_cases hcm : c < mincount
        · rw [if_pos hcm] at h
          exact absurd h (by simp)
        · rw [if_neg hcm] at h
          simp only [Except.ok.injEq, Prod.mk.injEq] at h
          obtain ⟨h1, _, _⟩ := h
          subst h1
          simp [hacc]
          omega
      · rw [if_neg hce] at h
        exact absurd h (by simp)

/-- Claim C6.  For Range(mincount, maxcount) with mincount ≤ maxcount:
a run of k successful sub parses followed by a ConstructError yields
RangeError when k < mincount and otherwise the k successes with the stream
rewound to the position before the failed attempt; every successful parse
returns between mincount and maxcount items; build raises RangeError on a
non-sequence input and on a sequence whose length is out of bounds. -/
theorem C6_range_bounds {A B : Type} (mincount maxcount : Nat) (sub : Sub A B)
    (s : PStream) (ctx : Ctx B) (hmm : mincount ≤ maxcount) :
    (∀ (k : Nat) (e : ErrClass) (items : List A) (sk : PStream) (ctxk : Ctx B),
        isConstructError e = true →
        iterSub sub k s ctx = .ok (items, sk, ctxk) →
        (k < maxcount → sub.parseF sk ctxk = .error e) →
        k ≤ maxcount →
        Range_parse mincount maxcount sub s ctx =
          if k < mincount then .error .rangeError else .ok (items, sk, ctxk))
    ∧ (∀ (lst : List A) (s1 : PStream) (c1 : Ctx B),
        Range_parse mincount maxcount sub s ctx = .ok (lst, s1, c1) →
        mincount ≤ lst.length ∧ lst.length ≤ maxcount)
    ∧ (∀ bs : BStream,
        Range_build mincount maxcount sub .nonsequence bs ctx =
          .error .rangeError)
    ∧ (∀ (l : List A) (bs : BStream),
        l.length < mincount ∨ l.length > maxcount →
        Range_build mincount maxcount sub (.sequence l) bs ctx =
          .error .rangeError) := by
  refine ⟨?_, ?_, fun bs => rfl, ?_⟩
  · intro k e items sk ctxk he hiter hfail hk
    have h := Range_parse_loop_char mincount sub e he k maxcount 0 s ctx []
      items sk ctxk hiter hfail hk (by omega)
    simpa [Range_parse] using h
  · intro lst s1 c1 h
    have := Range_parse_loop_bounds mincount sub maxcount 0 s ctx [] lst s1 c1
      (by simpa [Range_parse] using h) rfl (by omega)
    omega
  · intro l bs hl
    simp only [Range_build]
    rw [if_pos hl]

/-- Claim C6 witness: Range(1, 3) over a byte field on a one-byte stream
parses one item and returns it with the stream rewound to the EOF attempt
position. -/
theorem C6_range_bounds_witness :
    Range_parse 1 3 byteSub ⟨[7], 0⟩ ([] : Ctx Nat) =
      .ok ([7], ⟨[7], 1⟩, []) := by
  have h := (C6_range_bounds 1 3 byteSub ⟨[7], 0⟩ [] (by decide)).1 1
    .fieldError [7] ⟨[7], 1⟩ [] (by decide) rfl (fun _ => rfl) (by decide)
  simpa using h

/-- Building a list prefix successfully, the Range build loop continues on
the remaining items with the count advanced by the prefix length. -/
theorem Range_build_loop_append {A B : Type} (mincount : Nat) (sub : Sub A B) :
    ∀ (l1 : List A) (cnt : Nat) (bs : BStream) (ctx : Ctx B) (s1 : BStream)
      (c1 : Ctx B),
      buildAll sub l1 bs ctx = .ok (s1, c1) →
      ∀ rest : List A,
        Range_build_loop mincount sub (l1 ++ rest) cnt bs ctx =
          Range_build_loop mincount sub rest (cnt + l1.length) s1 c1 := by
  intro l1
  induction l1 with
  | nil =>
    intro cnt bs ctx s1 c1 h rest
    simp only [buildAll, Except.ok.injEq, Prod.mk.injEq] at h
    obtain ⟨h1, h2⟩ := h
    subst h1; subst h2
    simp
  | cons x xs ih =>
    intro cnt bs ctx s1 c1 h rest
    cases hb : sub.buildF x bs ctx with
    | error e => simp [buildAll, hb] at h
    | ok pair =>
      obtain ⟨s2, c2⟩ := pair
      simp only [buildAll, hb] at h
      simp only [List.cons_append, Range_build_loop, hb, List.append_eq]
      rw [ih (cnt + 1) s2 c2 s1 c1 h rest]
      have : cnt + 1 + xs.length = cnt + (x :: xs).length := by
        simp
        omega
      rw [this]

/-- Claim C10.  When Range build is given a sequence of valid length and the
sub raises a ConstructError on an item after at least mincount items have
been built, the build returns successfully: the error is discarded, the
remaining items are not written, and the stream state is exactly the one
reached after the items built before the failure. -/
theorem C10_range_build_swallows {A B : Type} (mincount maxcount : Nat)
    (sub : Sub A B) (l1 l2 : List A) (x : A) (bs s1 : BStream)
    (ctx c1 : Ctx B) (e : ErrClass)
    (hmin : mincount ≤ l1.length)
    (hmax : l1.length + 1 + l2.length ≤ maxcount)
    (hall : buildAll sub l1 bs ctx = .ok (s1, c1))
    (hfail : sub.buildF x s1 c1 = .error e)
    (hce : isConstructError e = true) :
    Range_build mincount maxcount sub (.sequence (l1 ++ x :: l2)) bs ctx =
      .ok (s1, c1) := by
  have hlen : (l1 ++ x :: l2).length = l1.length + 1 + l2.length := by
    simp
    omega
  have hcond : ¬((l1 ++ x :: l2).length < mincount
      ∨ (l1 ++ x :: l2).length > maxcount) := by
    rw [hlen]
    omega
  simp only [Range_build]
  rw [if_neg hcond,
    Range_build_loop_append mincount sub l1 0 bs ctx s1 c1 hall (x :: l2)]
  simp only [Range_build_loop, hfail, hce, if_true]
  rw [if_neg (by omega)]

/-- Claim C10 witness: Range(1, 3) build over a sub that only builds zero,
on the sequence 0 then 1: the first item is written, the failure on the
second is swallowed, and build returns with only the first byte written. -/
theorem C10_range_build_swallows_witness :
    buildAll zeroOnlySub [0] ⟨[], 0⟩ ([] : Ctx Nat) = .ok (⟨[0], 1⟩, [])
    ∧ Range_build 1 3 zeroOnlySub (.sequence [0, 1]) ⟨[], 0⟩ [] =
        .ok (⟨[0], 1⟩, []) :=
  ⟨rfl,
   C10_range_build_swallows 1 3 zeroOnlySub [0] [] 1 ⟨[], 0⟩ ⟨[0], 1⟩ [] []
     .fieldError (by decide) (by decide) rfl rfl (by decide)⟩

end ConstructSpec
